import Mathlib

/-!
Verification of the CDN signed-URL generator (`sign_url` in `cdn/snippets.py`).

The development shallowly embeds the Python function and the library
primitives it calls (`str.strip`, `urllib.parse.urlsplit`,
`urllib.parse.parse_qs` truthiness, `base64.urlsafe_b64decode` /
`urlsafe_b64encode` via non-strict `binascii.a2b_base64`, `hmac` with
`hashlib.sha1`, `str.encode('utf-8')`).  Bytes are modelled as `Nat`
values below 256, byte strings as `List Nat`, and 32-bit machine words
as `Nat` reduced modulo `2 ^ 32` at every step.  A `datetime` value is
modelled by its signed count of microseconds since the Unix epoch
(CPython datetimes have exactly microsecond resolution), and the
`int((expiration_time - epoch).total_seconds())` conversion faithfully:
`total_seconds()` divides the exact microsecond count by `10 ** 6` with
float true division, which CPython rounds correctly to an IEEE-754
double (53 significant bits, ties to even), and `int` then truncates
that double toward zero.  The rounded double is held here exactly, as
an integer mantissa and a binary exponent.
-/

set_option maxRecDepth 8000
set_option maxHeartbeats 2000000

/-- Errors that `sign_url` can raise: `ValueError` from `urlsplit`
(mismatched IPv6 brackets), `binascii.Error` from base64 decoding
(incorrect padding), and `ValueError` from `_bytes_from_decode_data`
when the key string is not pure ASCII. -/
inductive SignError where
  | parseError
  | decodeError
  | nonAsciiKey
deriving DecidableEq, Repr

/-- Reduce modulo `2 ^ 32`: the implicit word size of the SHA-1 state. -/
def w32 (n : Nat) : Nat := n % 4294967296

/-- Left-rotation of a 32-bit word (`n < 2 ^ 32`) by `b` bits. -/
def rotl32 (b n : Nat) : Nat := w32 (n * 2 ^ b + n / 2 ^ (32 - b))

/-- The SHA-1 round function `f` for round `i` (FIPS 180-1, as used by
`hashlib.sha1`).  `4294967295 - b` is bitwise complement on 32 bits. -/
def sha1F (i b c d : Nat) : Nat :=
  if i < 20 then (b &&& c) ||| ((4294967295 - b) &&& d)
  else if i < 40 then b ^^^ c ^^^ d
  else if i < 60 then (b &&& c) ||| (b &&& d) ||| (c &&& d)
  else b ^^^ c ^^^ d

/-- The SHA-1 round constant `K` for round `i`. -/
def sha1K (i : Nat) : Nat :=
  if i < 20 then 1518500249
  else if i < 40 then 1859775393
  else if i < 60 then 2400959708
  else 3395469782

/-- One SHA-1 compression round: state `(a,b,c,d,e)`, input `(i, w[i])`. -/
def sha1Step (st : Nat × Nat × Nat × Nat × Nat) (iw : Nat × Nat) :
    Nat × Nat × Nat × Nat × Nat :=
  let (a, b, c, d, e) := st
  let (i, w) := iw
  (w32 (rotl32 5 a + sha1F i b c d + e + sha1K i + w), a, rotl32 30 b, c, d)

/-- Big-endian 32-bit words from a byte list (the 16 words of a block). -/
def words16 : List Nat → List Nat
  | b0 :: b1 :: b2 :: b3 :: rest =>
    (((b0 * 256 + b1) * 256 + b2) * 256 + b3) :: words16 rest
  | _ => []

/-- Message-schedule extension: `revW` holds the words produced so far,
most recent first; each step prepends
`rotl1 (w[i-3] xor w[i-8] xor w[i-14] xor w[i-16])` and the final list is
returned in chronological order. -/
def extendW : Nat → List Nat → List Nat
  | 0, revW => revW.reverse
  | k + 1, revW =>
    extendW k
      (rotl32 1 ((revW.getD 2 0) ^^^ (revW.getD 7 0) ^^^ (revW.getD 13 0) ^^^ (revW.getD 15 0))
        :: revW)

/-- SHA-1 compression of one 64-byte block into the running state. -/
def processBlock (st : Nat × Nat × Nat × Nat × Nat) (block : List Nat) :
    Nat × Nat × Nat × Nat × Nat :=
  let ws := extendW 64 (words16 block).reverse
  let r := (ws.enum.map (fun p => (p.1, p.2))).foldl sha1Step st
  (w32 (st.1 + r.1), w32 (st.2.1 + r.2.1), w32 (st.2.2.1 + r.2.2.1),
   w32 (st.2.2.2.1 + r.2.2.2.1), w32 (st.2.2.2.2 + r.2.2.2.2))

/-- Big-endian bytes of a 32-bit word. -/
def wordBytes (w : Nat) : List Nat :=
  [w / 16777216 % 256, w / 65536 % 256, w / 256 % 256, w % 256]

/-- Big-endian 8-byte encoding of the 64-bit message bit length. -/
def beBytes8 (n : Nat) : List Nat :=
  [n / 2 ^ 56 % 256, n / 2 ^ 48 % 256, n / 2 ^ 40 % 256, n / 2 ^ 32 % 256,
   n / 2 ^ 24 % 256, n / 2 ^ 16 % 256, n / 2 ^ 8 % 256, n % 256]

/-- SHA-1 padding: `0x80`, zeros to 56 mod 64, then the bit length. -/
def sha1Pad (msg : List Nat) : List Nat :=
  msg ++ 128 :: List.replicate ((119 - msg.length % 64) % 64) 0 ++ beBytes8 (msg.length * 8)

/-- Split a padded message into its 64-byte blocks (`k` = block count). -/
def chunk64 : Nat → List Nat → List (List Nat)
  | 0, _ => []
  | k + 1, l => l.take 64 :: chunk64 k (l.drop 64)

/-- SHA-1 of a byte string, as `hashlib.sha1(msg).digest()`: a 20-byte digest. -/
def sha1 (msg : List Nat) : List Nat :=
  let padded := sha1Pad msg
  let f := (chunk64 (padded.length / 64) padded).foldl processBlock
    (1732584193, 4023233417, 2562383102, 271733878, 3285377520)
  wordBytes f.1 ++ wordBytes f.2.1 ++ wordBytes f.2.2.1 ++ wordBytes f.2.2.2.1 ++
    wordBytes f.2.2.2.2

/-- HMAC-SHA1 as `hmac.new(key, msg, hashlib.sha1).digest()`:
block size 64, long keys are first hashed, `ipad = 0x36`, `opad = 0x5c`. -/
def hmacSha1 (key msg : List Nat) : List Nat :=
  let key1 := if 64 < key.length then sha1 key else key
  let key2 := key1 ++ List.replicate (64 - key1.length) 0
  sha1 ((key2.map (fun b => b ^^^ 92)) ++ sha1 ((key2.map (fun b => b ^^^ 54)) ++ msg))

/-- UTF-8 encoding of one Unicode scalar value, as CPython `str.encode('utf-8')`. -/
def utf8Char (c : Char) : List Nat :=
  let n := c.toNat
  if n < 128 then [n]
  else if n < 2048 then [192 + n / 64, 128 + n % 64]
  else if n < 65536 then [224 + n / 4096, 128 + n / 64 % 64, 128 + n % 64]
  else [240 + n / 262144, 128 + n / 4096 % 64, 128 + n / 64 % 64, 128 + n % 64]

/-- UTF-8 encoding of a character sequence. -/
def utf8 : List Char → List Nat
  | [] => []
  | c :: cs => utf8Char c ++ utf8 cs

example : sha1 (utf8 "abc".data) =
    [169, 153, 62, 54, 71, 6, 129, 106, 186, 62, 37, 113, 120, 80, 194, 108,
     156, 208, 216, 157] := by decide

example : sha1 [] =
    [218, 57, 163, 238, 94, 107, 75, 13, 50, 85, 191, 239, 149, 96, 24, 144,
     175, 216, 7, 9] := by decide

example :
    hmacSha1 (utf8 "key".data) (utf8 "The quick brown fox jumps over the lazy dog".data) =
    [222, 124, 155, 133, 184, 183, 138, 166, 188, 138, 122, 54, 247, 10, 144,
     112, 28, 157, 180, 217] := by decide

/-- Python `str` whitespace (the characters `str.strip()` removes):
ASCII space, `\t\n\v\f\r`, the C1 separators 28-31, NEL, NBSP, and the
Unicode space separators. -/
def pyWhitespaceChar (c : Char) : Bool :=
  c.toNat = 32 || (9 ≤ c.toNat && c.toNat ≤ 13) || (28 ≤ c.toNat && c.toNat ≤ 31) ||
  c.toNat = 133 || c.toNat = 160 || c.toNat = 5760 ||
  (8192 ≤ c.toNat && c.toNat ≤ 8202) || c.toNat = 8232 || c.toNat = 8233 ||
  c.toNat = 8239 || c.toNat = 8287 || c.toNat = 12288

/-- Python `url.strip()`: drop leading and trailing whitespace. -/
def pyStrip (s : String) : String :=
  ⟨((s.data.dropWhile pyWhitespaceChar).reverse.dropWhile pyWhitespaceChar).reverse⟩

/-- Index of the first occurrence of `c`, as Python `str.find` (when hit). -/
def idxOfChar : Char → List Char → Option Nat
  | _, [] => none
  | c, x :: xs => if x = c then some 0 else (idxOfChar c xs).map (· + 1)

/-- Python `url.split(c, 1)`: the part before the first occurrence of `c`,
the part after it, and whether `c` occurred at all (`c in url`). -/
def splitAtFirstChar (c : Char) (l : List Char) : List Char × List Char × Bool :=
  match idxOfChar c l with
  | some i => (l.take i, l.drop (i + 1), true)
  | none => (l, [], false)

/-- Membership in `urllib.parse.scheme_chars` (ASCII letters, digits, `+-.`). -/
def schemeChar (c : Char) : Bool :=
  c.isAlpha || c.isDigit || c = '+' || c = '-' || c = '.'

/-- The delimiter position computed by `urllib.parse._splitnetloc`: the least
index of `/`, `?` or `#` in the text after the leading `//` (list length when
none occurs). -/
def splitnetlocDelim (l : List Char) : Nat :=
  min (min ((idxOfChar '/' l).getD l.length) ((idxOfChar '?' l).getD l.length))
    ((idxOfChar '#' l).getD l.length)

/-- The named tuple returned by `urllib.parse.urlsplit`. -/
structure SplitResult where
  scheme : String
  netloc : String
  path : String
  query : String
  fragment : String
deriving DecidableEq, Repr

/-- Scheme handling of `urlsplit`: at the first `:` (if at a positive index),
the `http` fast path lowercases and strips the scheme unconditionally; the
general path requires every scheme character to be legal and the remainder
not to be a pure digit string (the "port number, not scheme" guard).
Returns `(scheme, rest_of_url)`. -/
def urlsplitScheme (url0 : List Char) : List Char × List Char :=
  match idxOfChar ':' url0 with
  | some i =>
    if 0 < i then
      let pre := url0.take i
      if pre = "http".data then (pre.map Char.toLower, url0.drop (i + 1))
      else if pre.all schemeChar then
        let rest := url0.drop (i + 1)
        if rest.isEmpty || rest.any (fun c => !c.isDigit) then (pre.map Char.toLower, rest)
        else ([], url0)
      else ([], url0)
    else ([], url0)
  | none => ([], url0)

/-- Netloc handling of `urlsplit`: when the remainder starts with `//`, cut
the netloc at the first `/`, `?` or `#` and raise `ValueError` ("Invalid
IPv6 URL") when exactly one of `[`, `]` occurs in it. -/
def urlsplitNetloc (url1 : List Char) : Except SignError (List Char × List Char) :=
  if url1.take 2 = ['/', '/'] then
    let tail2 := url1.drop 2
    let delim := splitnetlocDelim tail2
    let netloc := tail2.take delim
    if (netloc.contains '[' && !netloc.contains ']') ||
        (netloc.contains ']' && !netloc.contains '[') then
      .error .parseError
    else .ok (netloc, tail2.drop delim)
  else .ok ([], url1)

/-- `urllib.parse.urlsplit(url)` with `allow_fragments=True` (the signer's
call): scheme, then netloc, then the fragment split at the first `#`, then
the query split at the first `?`. -/
def urlsplit (s : String) : Except SignError SplitResult :=
  let su := urlsplitScheme s.data
  match urlsplitNetloc su.2 with
  | .error e => .error e
  | .ok (netloc, url2) =>
    let fr := splitAtFirstChar '#' url2
    let url3 := if fr.2.2 then fr.1 else url2
    let fragment := if fr.2.2 then fr.2.1 else []
    let qr := splitAtFirstChar '?' url3
    let path := if qr.2.2 then qr.1 else url3
    let query := if qr.2.2 then qr.2.1 else []
    .ok ⟨⟨su.1⟩, ⟨netloc⟩, ⟨path⟩, ⟨query⟩, ⟨fragment⟩⟩

/-- Python `s.split(sep)` for a one-character separator (always non-empty;
`""` splits to `[""]`). -/
def pySplitChar (sep : Char) : List Char → List (List Char)
  | [] => [[]]
  | c :: cs =>
    let r := pySplitChar sep cs
    if c = sep then [] :: r
    else
      match r with
      | [] => [[c]]
      | h :: t => (c :: h) :: t

/-- Second splitting pass of `parse_qsl`: each `&`-piece is split again
on `;` (the 2017-era stdlib that this six-based sample targets treats
both as separators). -/
def splitSemis : List (List Char) → List (List Char)
  | [] => []
  | s :: rest => pySplitChar ';' s ++ splitSemis rest

/-- Truthiness of `parse_qs(query, keep_blank_values=True)`: with
`keep_blank_values=True` and `strict_parsing=False`, every non-empty
`&`/`;`-separated segment contributes exactly one `(name, value)` pair
(percent-decoding maps segments to pairs one-to-one), so the dict is
non-empty exactly when some segment is non-empty. -/
def query_params_nonempty (qs : String) : Bool :=
  !((splitSemis (pySplitChar '&' qs.data)).filter (fun seg => !seg.isEmpty)).isEmpty

/-- Character `v` of the standard base64 alphabet, `v < 64`. -/
def encChar (v : Nat) : Char :=
  if v < 26 then Char.ofNat (65 + v)
  else if v < 52 then Char.ofNat (97 + (v - 26))
  else if v < 62 then Char.ofNat (48 + (v - 52))
  else if v = 62 then '+' else '/'

/-- Standard base64 encoding of a byte string (`binascii.b2a_base64`
without the trailing newline): 3-byte groups to 4 characters, with `=`
padding on a final 1- or 2-byte group. -/
def b64chunks : List Nat → List Char
  | [] => []
  | [b1] => [encChar (b1 / 4), encChar (b1 % 4 * 16), '=', '=']
  | [b1, b2] => [encChar (b1 / 4), encChar (b1 % 4 * 16 + b2 / 16), encChar (b2 % 16 * 4), '=']
  | b1 :: b2 :: b3 :: rest =>
    encChar (b1 / 4) :: encChar (b1 % 4 * 16 + b2 / 16) ::
      encChar (b2 % 16 * 4 + b3 / 64) :: encChar (b3 % 64) :: b64chunks rest

/-- The output translation of `base64.urlsafe_b64encode`: `+` to `-`, `/` to `_`. -/
def urlsafeEncChar (c : Char) : Char :=
  if c = '+' then '-' else if c = '/' then '_' else c

/-- `base64.urlsafe_b64encode(bs).decode('utf-8')` (the encoded output is
ASCII, so the `.decode` is the identity on the character sequence). -/
def urlsafe_b64encode (bs : List Nat) : String :=
  ⟨(b64chunks bs).map urlsafeEncChar⟩

/-- Value of a base64 data character (`table_a2b_base64`, pad excluded). -/
def b64DataVal (c : Char) : Option Nat :=
  if 'A' ≤ c && c ≤ 'Z' then some (c.toNat - 65)
  else if 'a' ≤ c && c ≤ 'z' then some (c.toNat - 97 + 26)
  else if '0' ≤ c && c ≤ '9' then some (c.toNat - 48 + 52)
  else if c = '+' then some 62
  else if c = '/' then some 63
  else none

/-- A character `binascii_find_valid` counts: a data character or the pad. -/
def b64ValidChar (c : Char) : Bool :=
  c = '=' || (b64DataVal c).isSome

/-- First valid character of the remaining input (the pad lookahead of
`binascii.a2b_base64`: the current `=` itself is the first valid character,
so the scan continues with the rest of the input). -/
def b64NextValid : List Char → Option Char
  | [] => none
  | c :: cs => if b64ValidChar c then some c else b64NextValid cs

/-- The decoding loop of non-strict `binascii.a2b_base64`: characters
outside the alphabet are skipped; a pad is ignored unless at least two
characters of the current quad were seen (for exactly two, a second pad
must follow among the remaining valid characters), in which case decoding
terminates; six data bits are accumulated per character and a byte is
emitted whenever eight are available; leftover bits at the end of input
raise `binascii.Error` ("Incorrect padding"). -/
def a2bGo : List Char → Nat → Nat → Nat → List Nat → Except SignError (List Nat)
  | [], _, leftbits, _, acc =>
    if leftbits ≠ 0 then .error .decodeError else .ok acc.reverse
  | c :: cs, quadPos, leftbits, leftchar, acc =>
    if c = '=' then
      if quadPos < 2 || (quadPos = 2 && !(b64NextValid cs = some '=')) then
        a2bGo cs quadPos leftbits leftchar acc
      else .ok acc.reverse
    else
      match b64DataVal c with
      | none => a2bGo cs quadPos leftbits leftchar acc
      | some v =>
        let leftchar2 := leftchar * 64 + v
        let leftbits2 := leftbits + 6
        if 8 ≤ leftbits2 then
          a2bGo cs ((quadPos + 1) % 4) (leftbits2 - 8) (leftchar2 % 2 ^ (leftbits2 - 8))
            ((leftchar2 / 2 ^ (leftbits2 - 8)) % 256 :: acc)
        else a2bGo cs ((quadPos + 1) % 4) leftbits2 leftchar2 acc

/-- `binascii.a2b_base64` on a character sequence. -/
def a2b_base64 (cs : List Char) : Except SignError (List Nat) :=
  a2bGo cs 0 0 0 []

/-- The input translation of `base64.urlsafe_b64decode`: `-` to `+`, `_` to `/`. -/
def urlsafeDecChar (c : Char) : Char :=
  if c = '-' then '+' else if c = '_' then '/' else c

/-- `base64.urlsafe_b64decode(s)` for a `str` argument: `ValueError` when the
string is not pure ASCII (`_bytes_from_decode_data`), else translate the
URL-safe alphabet back and run `binascii.a2b_base64`. -/
def urlsafe_b64decode (s : String) : Except SignError (List Nat) :=
  if s.data.any (fun c => 127 < c.toNat) then .error .nonAsciiKey
  else a2b_base64 (s.data.map urlsafeDecChar)

/-- Round-half-even: the integer nearest to `a / b` (`b > 0`), ties going to
the even integer, as CPython's correctly rounded `int.__truediv__` behaves at
the mantissa level. -/
def roundHalfEven (a b : Nat) : Nat :=
  let d := a / b
  let r := a % b
  if 2 * r < b then d
  else if b < 2 * r then d + 1
  else if d % 2 = 0 then d else d + 1

/-- Number of doublings that bring `p` up to at least `q` (fuel-bounded; it
yields the magnitude of the negative binary exponent of `p / q < 1`). -/
def scaleUp : Nat → Nat → Nat → Nat
  | 0, _, _ => 0
  | fuel + 1, p, q => if q ≤ p then 0 else scaleUp fuel (2 * p) q + 1

/-- Fuel-bounded floor binary logarithm (the argument at least halves each
step, so fuel `n` suffices): the greatest `L` with `2 ^ L ≤ n`, and `0` at
`n = 0`. -/
def log2fuel : Nat → Nat → Nat
  | 0, _ => 0
  | fuel + 1, n => if 2 ≤ n then log2fuel fuel (n / 2) + 1 else 0

/-- Floor binary logarithm by structural recursion (so that it evaluates
definitionally, unlike the well-founded `Nat.log2`). -/
def natLog2 (n : Nat) : Nat := log2fuel n n

/-- The binary exponent `E` of the positive rational `p / q`, with
`2 ^ E * q ≤ p < 2 ^ (E + 1) * q`. -/
def ratExp2 (p q : Nat) : Int :=
  if q ≤ p then (natLog2 (p / q) : Int) else -(scaleUp q p q : Int)

/-- `int(p / q)` computed the way CPython computes it for `int` operands
(`long_true_divide` then `int`): the true quotient is first rounded to the
nearest IEEE-754 double, that is to 53 significant bits with ties to even
(the rounded value `m * 2 ^ (E - 52)` is kept in exact integer arithmetic),
and the double is then truncated. -/
def floatDivInt (p q : Nat) : Nat :=
  if p = 0 then 0 else
  let E := ratExp2 p q
  let num := p * 2 ^ 52 * 2 ^ (-E).toNat
  let den := q * 2 ^ E.toNat
  let m := roundHalfEven num den
  if 52 ≤ E then m * 2 ^ (E - 52).toNat else m / 2 ^ (52 - E).toNat

/-- Python `int((expiration_time - epoch).total_seconds())` with
`epoch = utcfromtimestamp(0)`: the datetime is modelled by `us`, its signed
microseconds since the epoch; `total_seconds()` divides it by `10 ** 6`
with float true division (correctly rounded to a double, computed here
exactly by `floatDivInt`, and symmetric in the sign), and `int(...)`
truncates the double toward zero. -/
def expiration_timestamp_of (us : Int) : Int :=
  if us < 0 then -(floatDivInt (-us).toNat 1000000 : Int)
  else (floatDivInt us.toNat 1000000 : Int)

/-- `sign_url(url, key_name, base64_key, expiration_time)` from
`cdn/snippets.py`.  The result models the function's observable behavior: on
success, the list of lines written to standard output (the single
`print(signed_url)`) paired with the Python return value (`None` — the
function has no `return` statement, hence `none`); uncaught exceptions
are the `error` case. -/
def sign_url (url key_name base64_key : String) (expiration_time : Int) :
    Except SignError (List String × Option String) :=
  let stripped_url := pyStrip url
  match urlsplit stripped_url with
  | .error e => .error e
  | .ok parsed_url =>
    let query_params := query_params_nonempty parsed_url.query
    let expiration_timestamp := expiration_timestamp_of expiration_time
    match urlsafe_b64decode base64_key with
    | .error e => .error e
    | .ok decoded_key =>
      let url_to_sign := stripped_url ++ (if query_params then "&" else "?") ++
        "Expires=" ++ toString expiration_timestamp ++ "&KeyName=" ++ key_name
      let digest := hmacSha1 decoded_key (utf8 url_to_sign.data)
      let signature := urlsafe_b64encode digest
      let signed_url := url_to_sign ++ "&Signature=" ++ signature
      .ok ([signed_url], none)

theorem b64DataVal_encChar : ∀ v : Nat, v < 64 → b64DataVal (encChar v) = some v := by decide

theorem encChar_ne_pad : ∀ v : Nat, v < 64 → encChar v ≠ '=' := by decide

theorem urlsafeEnc_encChar_ascii : ∀ v : Nat, v < 64 → (urlsafeEncChar (encChar v)).toNat ≤ 127 := by
  decide

theorem urlsafeDec_urlsafeEnc_encChar :
    ∀ v : Nat, v < 64 → urlsafeDecChar (urlsafeEncChar (encChar v)) = encChar v := by decide

theorem urlsafeEnc_encChar_ne_pad : ∀ v : Nat, v < 64 → urlsafeEncChar (encChar v) ≠ '=' := by
  decide

theorem urlsafeEncChar_pad : urlsafeEncChar '=' = '=' := rfl

theorem urlsafeDecChar_pad : urlsafeDecChar '=' = '=' := rfl

theorem a2bGo_skip_low (c : Char) (cs : List Char) (qp lb lc : Nat) (acc : List Nat)
    (hne : c ≠ '=') (hval : b64DataVal c = none) :
    a2bGo (c :: cs) qp lb lc acc = a2bGo cs qp lb lc acc := by
  simp only [a2bGo, if_neg hne, hval]

theorem a2bGo_data_low (c : Char) (v : Nat) (cs : List Char) (qp lb lc : Nat) (acc : List Nat)
    (hne : c ≠ '=') (hval : b64DataVal c = some v) (h8 : lb + 6 < 8) :
    a2bGo (c :: cs) qp lb lc acc = a2bGo cs ((qp + 1) % 4) (lb + 6) (lc * 64 + v) acc := by
  simp only [a2bGo, if_neg hne, hval, if_neg (by omega : ¬ 8 ≤ lb + 6)]

theorem a2bGo_data_emit (c : Char) (v : Nat) (cs : List Char) (qp lb lc : Nat) (acc : List Nat)
    (hne : c ≠ '=') (hval : b64DataVal c = some v) (h8 : 8 ≤ lb + 6) :
    a2bGo (c :: cs) qp lb lc acc =
      a2bGo cs ((qp + 1) % 4) (lb + 6 - 8) ((lc * 64 + v) % 2 ^ (lb + 6 - 8))
        ((lc * 64 + v) / 2 ^ (lb + 6 - 8) % 256 :: acc) := by
  simp only [a2bGo, if_neg hne, hval, if_pos h8]

theorem a2bGo_pad_term3 (cs : List Char) (lb lc : Nat) (acc : List Nat) :
    a2bGo ('=' :: cs) 3 lb lc acc = .ok acc.reverse := by
  simp [a2bGo]

theorem a2bGo_chunk3 (b1 b2 b3 : Nat) (h1 : b1 < 256) (h2 : b2 < 256) (h3 : b3 < 256)
    (cs : List Char) (acc : List Nat) :
    a2bGo (encChar (b1 / 4) :: encChar (b1 % 4 * 16 + b2 / 16) ::
      encChar (b2 % 16 * 4 + b3 / 64) :: encChar (b3 % 64) :: cs) 0 0 0 acc =
    a2bGo cs 0 0 0 (b3 :: b2 :: b1 :: acc) := by
  have hv1 : b1 / 4 < 64 := by omega
  have hv2 : b1 % 4 * 16 + b2 / 16 < 64 := by omega
  have hv3 : b2 % 16 * 4 + b3 / 64 < 64 := by omega
  have hv4 : b3 % 64 < 64 := by omega
  rw [a2bGo_data_low _ _ _ _ _ _ _ (encChar_ne_pad _ hv1) (b64DataVal_encChar _ hv1) (by omega)]
  rw [a2bGo_data_emit _ _ _ _ _ _ _ (encChar_ne_pad _ hv2) (b64DataVal_encChar _ hv2) (by omega)]
  rw [a2bGo_data_emit _ _ _ _ _ _ _ (encChar_ne_pad _ hv3) (b64DataVal_encChar _ hv3) (by omega)]
  rw [a2bGo_data_emit _ _ _ _ _ _ _ (encChar_ne_pad _ hv4) (b64DataVal_encChar _ hv4) (by omega)]
  norm_num
  have hX : (((b1 / 4 * 64 + (b1 % 4 * 16 + b2 / 16)) % 16 * 64 + (b2 % 16 * 4 + b3 / 64)) % 4 * 64 +
      b3 % 64) % 1 = 0 := by omega
  have hA : (((b1 / 4 * 64 + (b1 % 4 * 16 + b2 / 16)) % 16 * 64 + (b2 % 16 * 4 + b3 / 64)) % 4 * 64 +
      b3 % 64) % 256 = b3 := by omega
  have hB : ((b1 / 4 * 64 + (b1 % 4 * 16 + b2 / 16)) % 16 * 64 + (b2 % 16 * 4 + b3 / 64)) / 4 % 256 = b2 := by
    omega
  have hC : (b1 / 4 * 64 + (b1 % 4 * 16 + b2 / 16)) / 16 % 256 = b1 := by omega
  rw [hX, hA, hB, hC]

theorem a2bGo_tail2 (b1 b2 : Nat) (h1 : b1 < 256) (h2 : b2 < 256) (acc : List Nat) :
    a2bGo [encChar (b1 / 4), encChar (b1 % 4 * 16 + b2 / 16), encChar (b2 % 16 * 4), '='] 0 0 0 acc =
    .ok (b2 :: b1 :: acc).reverse := by
  have hv1 : b1 / 4 < 64 := by omega
  have hv2 : b1 % 4 * 16 + b2 / 16 < 64 := by omega
  have hv3 : b2 % 16 * 4 < 64 := by omega
  rw [a2bGo_data_low _ _ _ _ _ _ _ (encChar_ne_pad _ hv1) (b64DataVal_encChar _ hv1) (by omega)]
  rw [a2bGo_data_emit _ _ _ _ _ _ _ (encChar_ne_pad _ hv2) (b64DataVal_encChar _ hv2) (by omega)]
  rw [a2bGo_data_emit _ _ _ _ _ _ _ (encChar_ne_pad _ hv3) (b64DataVal_encChar _ hv3) (by omega)]
  norm_num
  have hB : ((b1 / 4 * 64 + (b1 % 4 * 16 + b2 / 16)) % 16 * 64 + b2 % 16 * 4) / 4 % 256 = b2 := by omega
  have hC : (b1 / 4 * 64 + (b1 % 4 * 16 + b2 / 16)) / 16 % 256 = b1 := by omega
  rw [a2bGo_pad_term3, hB, hC]
  simp

theorem urlsafeEnc_encChar_not_high :
    ∀ v : Nat, v < 64 → decide (127 < (urlsafeEncChar (encChar v)).toNat) = false := by decide

theorem a2bGo_chunks (k : Nat) : ∀ (bs acc : List Nat), bs.length = 3 * k + 2 →
    (∀ b ∈ bs, b < 256) →
    a2bGo (((b64chunks bs).map urlsafeEncChar).map urlsafeDecChar) 0 0 0 acc =
      .ok (acc.reverse ++ bs) := by
  induction k with
  | zero =>
    intro bs acc hl hb
    rcases bs with _ | ⟨b1, _ | ⟨b2, rest⟩⟩
    · simp at hl
    · simp at hl
    · rcases rest with _ | ⟨b3, rest⟩
      · have h1 : b1 < 256 := hb b1 (by simp)
        have h2 : b2 < 256 := hb b2 (by simp)
        have hv1 : b1 / 4 < 64 := by omega
        have hv2 : b1 % 4 * 16 + b2 / 16 < 64 := by omega
        have hv3 : b2 % 16 * 4 < 64 := by omega
        simp only [b64chunks, List.map]
        rw [urlsafeDec_urlsafeEnc_encChar _ hv1, urlsafeDec_urlsafeEnc_encChar _ hv2,
          urlsafeDec_urlsafeEnc_encChar _ hv3,
          show urlsafeDecChar (urlsafeEncChar '=') = '=' from rfl]
        rw [a2bGo_tail2 _ _ h1 h2]
        simp
      · exfalso
        simp [List.length_cons] at hl
  | succ k ih =>
    intro bs acc hl hb
    rcases bs with _ | ⟨b1, _ | ⟨b2, _ | ⟨b3, rest⟩⟩⟩
    · simp at hl
    · simp at hl
    · simp [List.length_cons] at hl
    · have h1 : b1 < 256 := hb b1 (by simp)
      have h2 : b2 < 256 := hb b2 (by simp)
      have h3 : b3 < 256 := hb b3 (by simp)
      have hrest : ∀ b ∈ rest, b < 256 := fun b hm => hb b (by simp [hm])
      have hlen : rest.length = 3 * k + 2 := by simp [List.length_cons] at hl; omega
      have hv1 : b1 / 4 < 64 := by omega
      have hv2 : b1 % 4 * 16 + b2 / 16 < 64 := by omega
      have hv3 : b2 % 16 * 4 + b3 / 64 < 64 := by omega
      have hv4 : b3 % 64 < 64 := by omega
      simp only [b64chunks, List.map]
      rw [urlsafeDec_urlsafeEnc_encChar _ hv1, urlsafeDec_urlsafeEnc_encChar _ hv2,
        urlsafeDec_urlsafeEnc_encChar _ hv3, urlsafeDec_urlsafeEnc_encChar _ hv4]
      rw [a2bGo_chunk3 _ _ _ h1 h2 h3]
      rw [ih rest (b3 :: b2 :: b1 :: acc) hlen hrest]
      simp

theorem b64chunks_ascii (k : Nat) : ∀ bs : List Nat, bs.length = 3 * k + 2 →
    (∀ b ∈ bs, b < 256) →
    ((b64chunks bs).map urlsafeEncChar).any (fun c => 127 < c.toNat) = false := by
  induction k with
  | zero =>
    intro bs hl hb
    rcases bs with _ | ⟨b1, _ | ⟨b2, rest⟩⟩
    · simp at hl
    · simp at hl
    · rcases rest with _ | ⟨b3, rest⟩
      · have h1 : b1 < 256 := hb b1 (by simp)
        have h2 : b2 < 256 := hb b2 (by simp)
        have hv1 : b1 / 4 < 64 := by omega
        have hv2 : b1 % 4 * 16 + b2 / 16 < 64 := by omega
        have hv3 : b2 % 16 * 4 < 64 := by omega
        simp only [b64chunks, List.map, List.any_cons, List.any_nil]
        rw [urlsafeEnc_encChar_not_high _ hv1, urlsafeEnc_encChar_not_high _ hv2,
          urlsafeEnc_encChar_not_high _ hv3]
        rfl
      · exfalso
        simp [List.length_cons] at hl
  | succ k ih =>
    intro bs hl hb
    rcases bs with _ | ⟨b1, _ | ⟨b2, _ | ⟨b3, rest⟩⟩⟩
    · simp at hl
    · simp at hl
    · simp [List.length_cons] at hl
    · have h1 : b1 < 256 := hb b1 (by simp)
      have h2 : b2 < 256 := hb b2 (by simp)
      have h3 : b3 < 256 := hb b3 (by simp)
      have hrest : ∀ b ∈ rest, b < 256 := fun b hm => hb b (by simp [hm])
      have hlen : rest.length = 3 * k + 2 := by simp [List.length_cons] at hl; omega
      have hv1 : b1 / 4 < 64 := by omega
      have hv2 : b1 % 4 * 16 + b2 / 16 < 64 := by omega
      have hv3 : b2 % 16 * 4 + b3 / 64 < 64 := by omega
      have hv4 : b3 % 64 < 64 := by omega
      simp only [b64chunks, List.map, List.any_cons]
      rw [urlsafeEnc_encChar_not_high _ hv1, urlsafeEnc_encChar_not_high _ hv2,
        urlsafeEnc_encChar_not_high _ hv3, urlsafeEnc_encChar_not_high _ hv4]
      rw [ih rest hlen hrest]
      rfl

theorem urlsafe_b64_roundtrip (k : Nat) (bs : List Nat) (hl : bs.length = 3 * k + 2)
    (hb : ∀ b ∈ bs, b < 256) :
    urlsafe_b64decode (urlsafe_b64encode bs) = .ok bs := by
  unfold urlsafe_b64decode urlsafe_b64encode a2b_base64
  rw [show (⟨(b64chunks bs).map urlsafeEncChar⟩ : String).data =
    (b64chunks bs).map urlsafeEncChar from rfl]
  rw [b64chunks_ascii k bs hl hb]
  simp only [Bool.false_eq_true, if_false]
  rw [a2bGo_chunks k bs [] hl hb]
  simp

theorem b64chunks_struct (k : Nat) : ∀ bs : List Nat, bs.length = 3 * k + 2 →
    ∃ cs v, v < 64 ∧ b64chunks bs = cs ++ [encChar v, '='] ∧ cs.length = 4 * k + 2 := by
  induction k with
  | zero =>
    intro bs hl
    rcases bs with _ | ⟨b1, _ | ⟨b2, rest⟩⟩
    · simp at hl
    · simp at hl
    · rcases rest with _ | ⟨b3, rest⟩
      · exact ⟨[encChar (b1 / 4), encChar (b1 % 4 * 16 + b2 / 16)], b2 % 16 * 4,
          by omega, rfl, rfl⟩
      · exfalso
        simp [List.length_cons] at hl
  | succ k ih =>
    intro bs hl
    rcases bs with _ | ⟨b1, _ | ⟨b2, _ | ⟨b3, rest⟩⟩⟩
    · simp at hl
    · simp at hl
    · simp [List.length_cons] at hl
    · have hlen : rest.length = 3 * k + 2 := by simp [List.length_cons] at hl; omega
      obtain ⟨cs, v, hv, hchunks, hcs⟩ := ih rest hlen
      refine ⟨encChar (b1 / 4) :: encChar (b1 % 4 * 16 + b2 / 16) ::
        encChar (b2 % 16 * 4 + b3 / 64) :: encChar (b3 % 64) :: cs, v, hv, ?_, ?_⟩
      · simp [b64chunks, hchunks]
      · simp [List.length_cons, hcs]
        omega

theorem sha1_length (msg : List Nat) : (sha1 msg).length = 20 := by
  simp [sha1, wordBytes]

theorem sha1_bytes_lt (msg : List Nat) : ∀ b ∈ sha1 msg, b < 256 := by
  intro b hb
  simp [sha1, wordBytes] at hb
  rcases hb with h | h | h | h | h <;> rcases h with h | h | h | h <;> omega

theorem hmacSha1_length (key msg : List Nat) : (hmacSha1 key msg).length = 20 := by
  unfold hmacSha1
  exact sha1_length _

theorem hmacSha1_bytes_lt (key msg : List Nat) : ∀ b ∈ hmacSha1 key msg, b < 256 := by
  unfold hmacSha1
  exact sha1_bytes_lt _

theorem urlsplitNetloc_error (l : List Char) (e : SignError)
    (h : urlsplitNetloc l = .error e) : e = .parseError := by
  simp only [urlsplitNetloc] at h
  split_ifs at h
  all_goals simp_all

theorem urlsplit_error (s : String) (e : SignError) (h : urlsplit s = .error e) :
    e = .parseError := by
  simp only [urlsplit] at h
  cases hn : urlsplitNetloc (urlsplitScheme s.data).2 with
  | error e2 =>
    rw [hn] at h
    simp at h
    rw [← h]
    exact urlsplitNetloc_error _ _ hn
  | ok p =>
    rw [hn] at h
    simp at h

theorem sign_url_ok (url key_name base64_key : String) (t : Int) (r : SplitResult)
    (key : List Nat) (hr : urlsplit (pyStrip url) = .ok r)
    (hk : urlsafe_b64decode base64_key = .ok key) :
    sign_url url key_name base64_key t =
      .ok ([pyStrip url ++ (if query_params_nonempty r.query then "&" else "?") ++
        "Expires=" ++ toString (expiration_timestamp_of t) ++ "&KeyName=" ++ key_name ++
        "&Signature=" ++ urlsafe_b64encode (hmacSha1 key (utf8
          (pyStrip url ++ (if query_params_nonempty r.query then "&" else "?") ++
            "Expires=" ++ toString (expiration_timestamp_of t) ++ "&KeyName=" ++
            key_name).data))], none) := by
  simp only [sign_url]
  rw [hr, hk]

theorem sign_url_err_split (url key_name base64_key : String) (t : Int) (e : SignError)
    (h : urlsplit (pyStrip url) = .error e) :
    sign_url url key_name base64_key t = .error e := by
  simp only [sign_url]
  rw [h]

theorem sign_url_err_decode (url key_name base64_key : String) (t : Int) (r : SplitResult)
    (e : SignError) (hr : urlsplit (pyStrip url) = .ok r)
    (hk : urlsafe_b64decode base64_key = .error e) :
    sign_url url key_name base64_key t = .error e := by
  simp only [sign_url]
  rw [hr, hk]

theorem sign_url_ok_inv (url key_name base64_key : String) (t : Int)
    (out : List String × Option String) (h : sign_url url key_name base64_key t = .ok out) :
    ∃ r key, urlsplit (pyStrip url) = .ok r ∧ urlsafe_b64decode base64_key = .ok key := by
  simp only [sign_url] at h
  cases hs : urlsplit (pyStrip url) with
  | error e =>
    rw [hs] at h
    simp at h
  | ok r =>
    cases hk : urlsafe_b64decode base64_key with
    | error e =>
      rw [hs, hk] at h
      simp at h
    | ok key => exact ⟨r, key, rfl, rfl⟩

theorem pySplitChar_ne_nil (sep : Char) (l : List Char) : pySplitChar sep l ≠ [] := by
  cases l with
  | nil => simp [pySplitChar]
  | cons c cs =>
    simp only [pySplitChar]
    split_ifs
    · simp
    · split <;> simp

theorem pySplit_all_empty (sep : Char) (l : List Char) :
    (∀ seg ∈ pySplitChar sep l, seg = []) ↔ ∀ c ∈ l, c = sep := by
  induction l with
  | nil => simp [pySplitChar]
  | cons c cs ih =>
    simp only [pySplitChar]
    split_ifs with h
    · subst h
      simp [List.forall_mem_cons, ih]
    · cases hr : pySplitChar sep cs with
      | nil => exact absurd hr (pySplitChar_ne_nil sep cs)
      | cons hd tl => simp [List.forall_mem_cons, h]

theorem pySplit_forall (sep : Char) (P : Char → Prop) (l : List Char) :
    (∀ seg ∈ pySplitChar sep l, ∀ c ∈ seg, P c) ↔ ∀ c ∈ l, c = sep ∨ P c := by
  induction l with
  | nil => simp [pySplitChar]
  | cons c cs ih =>
    simp only [pySplitChar]
    split_ifs with h
    · subst h
      simp only [List.forall_mem_cons, List.not_mem_nil, false_implies, implies_true, true_and, ih]
      simp [List.forall_mem_cons]
    · cases hr : pySplitChar sep cs with
      | nil => exact absurd hr (pySplitChar_ne_nil sep cs)
      | cons hd tl =>
        rw [hr] at ih
        simp only [List.forall_mem_cons] at ih ⊢
        constructor
        · rintro ⟨⟨hc, hh⟩, ht⟩
          exact ⟨Or.inr hc, ih.mp ⟨hh, ht⟩⟩
        · rintro ⟨hc, hcs⟩
          have h2 := ih.mpr hcs
          exact ⟨⟨hc.resolve_left h, h2.1⟩, h2.2⟩

theorem splitSemis_forall (Q : List Char → Prop) (ls : List (List Char)) :
    (∀ seg ∈ splitSemis ls, Q seg) ↔ ∀ piece ∈ ls, ∀ seg ∈ pySplitChar ';' piece, Q seg := by
  induction ls with
  | nil => simp [splitSemis]
  | cons p ps ih =>
    constructor
    · intro h piece hp seg hseg
      rcases List.mem_cons.mp hp with rfl | hp2
      · exact h seg (by simp only [splitSemis, List.mem_append]; exact Or.inl hseg)
      · exact ih.mp
          (fun s hs => h s (by simp only [splitSemis, List.mem_append]; exact Or.inr hs))
          piece hp2 seg hseg
    · intro h seg hseg
      simp only [splitSemis, List.mem_append] at hseg
      rcases hseg with hs1 | hs2
      · exact h p (List.mem_cons_self p ps) seg hs1
      · exact ih.mpr (fun piece hp => h piece (List.mem_cons_of_mem p hp)) seg hs2

theorem query_all_sep (l : List Char) :
    (∀ seg ∈ splitSemis (pySplitChar '&' l), seg = []) ↔ ∀ c ∈ l, c = '&' ∨ c = ';' := by
  rw [splitSemis_forall]
  simp only [pySplit_all_empty]
  exact pySplit_forall '&' (fun c => c = ';') l

theorem query_params_nonempty_iff (qs : String) :
    query_params_nonempty qs = true ↔ ∃ c ∈ qs.data, c ≠ '&' ∧ c ≠ ';' := by
  unfold query_params_nonempty
  constructor
  · intro h
    by_contra hne
    push_neg at hne
    have hall : ∀ c ∈ qs.data, c = '&' ∨ c = ';' := by
      intro c hc
      by_cases h1 : c = '&'
      · exact Or.inl h1
      · exact Or.inr (hne c hc h1)
    have hempty : ∀ seg ∈ splitSemis (pySplitChar '&' qs.data), seg = [] :=
      (query_all_sep qs.data).mpr hall
    have hfil : (splitSemis (pySplitChar '&' qs.data)).filter (fun seg => !seg.isEmpty) = [] := by
      rw [List.filter_eq_nil_iff]
      intro seg hseg
      simp [hempty seg hseg]
    rw [hfil] at h
    simp at h
  · rintro ⟨c, hc, h1, h2⟩
    have hnall : ¬ ∀ seg ∈ splitSemis (pySplitChar '&' qs.data), seg = [] := by
      rw [query_all_sep]
      push_neg
      exact ⟨c, hc, by tauto⟩
    push_neg at hnall
    obtain ⟨seg, hseg, hsne⟩ := hnall
    have hmem : seg ∈ (splitSemis (pySplitChar '&' qs.data)).filter (fun seg => !seg.isEmpty) :=
      List.mem_filter.mpr ⟨hseg, by simp [hsne]⟩
    cases hfil : (splitSemis (pySplitChar '&' qs.data)).filter (fun seg => !seg.isEmpty) with
    | nil =>
      rw [hfil] at hmem
      simp at hmem
    | cons a b => rfl

/-- C1: for every url, key name, base64 key and expiration accepted by
`sign_url`, the printed signed URL equals the canonical string
`<stripped_url><separator>Expires=<seconds>&KeyName=<key_name>` followed by
`&Signature=<sig>`; in particular the output ends with the parameters
Expires, KeyName, Signature in that fixed order. -/
theorem sign_url_canonical_order (url key_name base64_key : String) (t : Int)
    (out : List String × Option String)
    (h : sign_url url key_name base64_key t = .ok out) :
    ∃ sep sig, (sep = "?" ∨ sep = "&") ∧
      out = ([pyStrip url ++ sep ++ "Expires=" ++ toString (expiration_timestamp_of t) ++
        "&KeyName=" ++ key_name ++ "&Signature=" ++ sig], none) := by
  obtain ⟨r, key, hr, hk⟩ := sign_url_ok_inv url key_name base64_key t out h
  rw [sign_url_ok url key_name base64_key t r key hr hk] at h
  injection h with h2
  refine ⟨if query_params_nonempty r.query then "&" else "?",
    urlsafe_b64encode (hmacSha1 key (utf8 (pyStrip url ++
      (if query_params_nonempty r.query then "&" else "?") ++ "Expires=" ++
      toString (expiration_timestamp_of t) ++ "&KeyName=" ++ key_name).data)), ?_, h2.symm⟩
  split_ifs <;> simp

/-- Witness for C1 at the spec's concrete scenario. -/
theorem sign_url_canonical_order_witness :
    sign_url "https://example.com/objects/dog.png" "my-key" "nZtRohdNCWBsDuP5xDZ1Tg=="
        2147483647000000 =
      .ok (["https://example.com/objects/dog.png?Expires=2147483647&KeyName=my-key&Signature=3RIy6M_isvVup3XFL-gdlNXSL4Q="], none) ∧
    (∃ sep sig, (sep = "?" ∨ sep = "&") ∧
      ((["https://example.com/objects/dog.png?Expires=2147483647&KeyName=my-key&Signature=3RIy6M_isvVup3XFL-gdlNXSL4Q="],
        none) : List String × Option String) =
        ([pyStrip "https://example.com/objects/dog.png" ++ sep ++ "Expires=" ++
          toString (expiration_timestamp_of 2147483647000000) ++ "&KeyName=" ++ "my-key" ++
          "&Signature=" ++ sig], none)) :=
  ⟨rfl, sign_url_canonical_order "https://example.com/objects/dog.png" "my-key"
    "nZtRohdNCWBsDuP5xDZ1Tg==" 2147483647000000
    (["https://example.com/objects/dog.png?Expires=2147483647&KeyName=my-key&Signature=3RIy6M_isvVup3XFL-gdlNXSL4Q="],
      none) rfl⟩

/-- C2: round-trip verification: on every accepted input, base64url-decoding
the Signature parameter appended to the output yields exactly the HMAC-SHA1
digest of the UTF-8 bytes of the canonical string under the decoded key. -/
theorem sign_url_signature_roundtrip (url key_name base64_key : String) (t : Int)
    (r : SplitResult) (key : List Nat)
    (hr : urlsplit (pyStrip url) = .ok r) (hk : urlsafe_b64decode base64_key = .ok key) :
    ∃ u2s sig,
      sign_url url key_name base64_key t = .ok ([u2s ++ "&Signature=" ++ sig], none) ∧
      u2s = pyStrip url ++ (if query_params_nonempty r.query then "&" else "?") ++
        "Expires=" ++ toString (expiration_timestamp_of t) ++ "&KeyName=" ++ key_name ∧
      urlsafe_b64decode sig = .ok (hmacSha1 key (utf8 u2s.data)) := by
  refine ⟨_, _, sign_url_ok url key_name base64_key t r key hr hk, rfl, ?_⟩
  exact urlsafe_b64_roundtrip 6 _ (by rw [hmacSha1_length]) (hmacSha1_bytes_lt _ _)

/-- Witness for C2 at the spec's concrete scenario. -/
theorem sign_url_signature_roundtrip_witness :
    urlsplit (pyStrip "https://example.com/objects/dog.png") =
      .ok ⟨"https", "example.com", "/objects/dog.png", "", ""⟩ ∧
    urlsafe_b64decode "nZtRohdNCWBsDuP5xDZ1Tg==" =
      .ok [157, 155, 81, 162, 23, 77, 9, 96, 108, 14, 227, 249, 196, 54, 117, 78] ∧
    (∃ u2s sig,
      sign_url "https://example.com/objects/dog.png" "my-key" "nZtRohdNCWBsDuP5xDZ1Tg=="
          2147483647000000 = .ok ([u2s ++ "&Signature=" ++ sig], none) ∧
      u2s = pyStrip "https://example.com/objects/dog.png" ++
        (if query_params_nonempty "" then "&" else "?") ++ "Expires=" ++
        toString (expiration_timestamp_of 2147483647000000) ++ "&KeyName=" ++ "my-key" ∧
      urlsafe_b64decode sig = .ok (hmacSha1
        [157, 155, 81, 162, 23, 77, 9, 96, 108, 14, 227, 249, 196, 54, 117, 78]
        (utf8 u2s.data))) :=
  ⟨rfl, rfl,
    sign_url_signature_roundtrip "https://example.com/objects/dog.png" "my-key"
      "nZtRohdNCWBsDuP5xDZ1Tg==" 2147483647000000
      ⟨"https", "example.com", "/objects/dog.png", "", ""⟩
      [157, 155, 81, 162, 23, 77, 9, 96, 108, 14, 227, 249, 196, 54, 117, 78] rfl rfl⟩

/-- C3 counterexample: for the url "https://example.com/path?&" the parsed
query string "&" is non-empty, yet the signed output places the separator
`?` (not `&`) before Expires, because `parse_qs` keeps no parameter from a
query made of separators only. -/
theorem sign_url_separator_cex :
    (urlsplit (pyStrip "https://example.com/path?&")).map SplitResult.query = .ok "&" ∧
    "&" ≠ "" ∧
    sign_url "https://example.com/path?&" "my-key" "nZtRohdNCWBsDuP5xDZ1Tg=="
        2147483647000000 =
      .ok (["https://example.com/path?&?Expires=2147483647&KeyName=my-key&Signature=heAwK2nDlIPHyXI3UOCwlOTxcOQ="], none) :=
  ⟨rfl, by decide, rfl⟩

/-- C3 amended: the separator before Expires is `&` exactly when
`parse_qs(query, keep_blank_values=True)` keeps at least one parameter,
which holds exactly when the query string contains a character other than
the separators `&` and `;`; otherwise the separator is `?`. -/
theorem sign_url_separator (url key_name base64_key : String) (t : Int)
    (r : SplitResult) (key : List Nat)
    (hr : urlsplit (pyStrip url) = .ok r) (hk : urlsafe_b64decode base64_key = .ok key) :
    ∃ sig,
      sign_url url key_name base64_key t =
        .ok ([pyStrip url ++ (if query_params_nonempty r.query then "&" else "?") ++
          "Expires=" ++ toString (expiration_timestamp_of t) ++ "&KeyName=" ++ key_name ++
          "&Signature=" ++ sig], none) ∧
      (query_params_nonempty r.query = true ↔ ∃ c ∈ r.query.data, c ≠ '&' ∧ c ≠ ';') :=
  ⟨_, sign_url_ok url key_name base64_key t r key hr hk, query_params_nonempty_iff r.query⟩

/-- Witness for C3 (amended) at the claim's query-bearing example URL. -/
theorem sign_url_separator_witness :
    urlsplit (pyStrip "https://example.com/path?a=1") =
      .ok ⟨"https", "example.com", "/path", "a=1", ""⟩ ∧
    urlsafe_b64decode "AAAA" = .ok [0, 0, 0] ∧
    (∃ sig,
      sign_url "https://example.com/path?a=1" "k" "AAAA" 0 =
        .ok ([pyStrip "https://example.com/path?a=1" ++
          (if query_params_nonempty "a=1" then "&" else "?") ++ "Expires=" ++
          toString (expiration_timestamp_of 0) ++ "&KeyName=" ++ "k" ++
          "&Signature=" ++ sig], none) ∧
      (query_params_nonempty "a=1" = true ↔
        ∃ c ∈ "a=1".data, c ≠ '&' ∧ c ≠ ';')) :=
  ⟨rfl, rfl,
    sign_url_separator "https://example.com/path?a=1" "k" "AAAA" 0
      ⟨"https", "example.com", "/path", "a=1", ""⟩ [0, 0, 0] rfl rfl⟩

/-- C4 counterexample: the key "not-valid-base64!!" does not raise a decode
error: non-strict `binascii.a2b_base64` silently discards the characters
outside the base64 alphabet, 16 data characters remain (a multiple of four),
the key decodes to 12 bytes and signing completes normally. -/
theorem sign_url_decode_cex :
    urlsafe_b64decode "not-valid-base64!!" =
      .ok [158, 139, 126, 189, 169, 98, 119, 230, 218, 177, 238, 184] ∧
    sign_url "https://example.com/objects/dog.png" "my-key" "not-valid-base64!!"
        2147483647000000 =
      .ok (["https://example.com/objects/dog.png?Expires=2147483647&KeyName=my-key&Signature=koD-5vLC3YALVpUZj4IVsVp7rrk="], none) :=
  ⟨rfl, rfl⟩

/-- C4 amended: signing fails before any HMAC computation exactly when the
base64 decode of the key fails (incorrect padding: the data characters seen
up to the end of input are not a multiple of four and no valid pad
terminated them); characters outside the base64url alphabet are discarded,
not rejected, so a key made of such characters can still decode and sign. -/
theorem sign_url_decode_failure (url key_name base64_key : String) (t : Int)
    (r : SplitResult) (hr : urlsplit (pyStrip url) = .ok r) :
    (∀ e, urlsafe_b64decode base64_key = .error e →
      sign_url url key_name base64_key t = .error e) ∧
    (∀ key, urlsafe_b64decode base64_key = .ok key →
      ∃ s, sign_url url key_name base64_key t = .ok ([s], none)) :=
  ⟨fun e hk => sign_url_err_decode url key_name base64_key t r e hr hk,
   fun key hk => ⟨_, sign_url_ok url key_name base64_key t r key hr hk⟩⟩

/-- Witness for C4 (amended): the short key "abc" has three data characters
and fails with a decode error that aborts signing, while "AAAA" decodes and
signing succeeds. -/
theorem sign_url_decode_failure_witness :
    urlsplit (pyStrip "https://example.com/x") = .ok ⟨"https", "example.com", "/x", "", ""⟩ ∧
    urlsafe_b64decode "abc" = .error .decodeError ∧
    sign_url "https://example.com/x" "k" "abc" 0 = .error .decodeError ∧
    (∃ s, sign_url "https://example.com/x" "k" "AAAA" 0 = .ok ([s], none)) :=
  ⟨rfl, rfl,
    (sign_url_decode_failure "https://example.com/x" "k" "abc" 0
      ⟨"https", "example.com", "/x", "", ""⟩ rfl).1 .decodeError rfl,
    (sign_url_decode_failure "https://example.com/x" "k" "AAAA" 0
      ⟨"https", "example.com", "/x", "", ""⟩ rfl).2 [0, 0, 0] rfl⟩

theorem roundHalfEven_bounds (a b : Nat) (hb : 0 < b) :
    2 * a ≤ 2 * roundHalfEven a b * b + b ∧ 2 * roundHalfEven a b * b ≤ 2 * a + b := by
  have h1 : b * (a / b) + a % b = a := Nat.div_add_mod a b
  have h2 : a % b < b := Nat.mod_lt a hb
  simp only [roundHalfEven]
  generalize a / b = d at *
  generalize a % b = r at *
  subst h1
  split_ifs with c1 c2 c3 <;> constructor <;> nlinarith [h2]

theorem log2fuel_lt (fuel : Nat) : ∀ n k : Nat, n < 2 ^ k → 0 < k → log2fuel fuel n < k := by
  induction fuel with
  | zero =>
    intro n k _ h0
    simpa [log2fuel] using h0
  | succ fuel ih =>
    intro n k hnk h0
    simp only [log2fuel]
    split_ifs with h2
    · rcases k with _ | k0
      · exact absurd h0 (by omega)
      rcases Nat.eq_zero_or_pos k0 with rfl | hk0
      · omega
      · have hdiv : n / 2 < 2 ^ k0 := by
          have hp : n < 2 ^ k0 * 2 := by
            rw [← pow_succ]
            exact hnk
          omega
        have hrec := ih (n / 2) k0 hdiv hk0
        omega
    · omega

theorem floatDivInt_eq_div (N : Nat) (hN : N < 17179869184000000) :
    floatDivInt N 1000000 = N / 1000000 := by
  rcases Nat.eq_zero_or_pos N with rfl | hNpos
  · rfl
  rcases Nat.lt_or_ge N 1000000 with h0 | h0
  · rw [Nat.div_eq_of_lt h0]
    simp only [floatDivInt, ratExp2, if_neg (show ¬ N = 0 by omega),
      if_neg (show ¬ 1000000 ≤ N by omega)]
    generalize scaleUp 1000000 N 1000000 = s
    rw [show (-(-(s : Int))).toNat = s by omega,
      show (-(s : Int)).toNat = 0 by omega, pow_zero, mul_one,
      if_neg (show ¬ (52 : Int) ≤ -(s : Int) by omega),
      show ((52 : Int) - -(s : Int)).toNat = 52 + s by omega]
    apply Nat.div_eq_of_lt
    rw [mul_assoc, ← pow_add]
    have hbnd := (roundHalfEven_bounds (N * 2 ^ (52 + s)) 1000000 (by norm_num)).2
    have hmono : N * 2 ^ (52 + s) ≤ 999999 * 2 ^ (52 + s) :=
      Nat.mul_le_mul_right _ (by omega)
    have hX : (2 : Nat) ^ 52 ≤ 2 ^ (52 + s) := Nat.pow_le_pow_right (by norm_num) (by omega)
    set m := roundHalfEven (N * 2 ^ (52 + s)) 1000000 with hmdef
    set X := 2 ^ (52 + s) with hXdef
    omega
  · simp only [floatDivInt, ratExp2, if_neg (show ¬ N = 0 by omega), if_pos h0]
    have hlog : natLog2 (N / 1000000) ≤ 33 := by
      have h2 := log2fuel_lt (N / 1000000) (N / 1000000) 34
        (show N / 1000000 < 2 ^ 34 by omega) (by norm_num)
      simp only [natLog2]
      omega
    generalize hL : natLog2 (N / 1000000) = L at hlog ⊢
    rw [show (-(L : Int)).toNat = 0 by omega, pow_zero, mul_one,
      show ((L : Int)).toNat = L by omega,
      if_neg (show ¬ (52 : Int) ≤ (L : Int) by omega),
      show ((52 : Int) - (L : Int)).toNat = 52 - L by omega]
    have hbnd := roundHalfEven_bounds (N * 2 ^ 52) (1000000 * 2 ^ L) (by positivity)
    set m := roundHalfEven (N * 2 ^ 52) (1000000 * 2 ^ L) with hmdef
    interval_cases L <;> omega

theorem expiration_timestamp_floor (t : Int) (h0 : 0 ≤ t) (hs : t < 17179869184000000) :
    expiration_timestamp_of t = t / 1000000 := by
  unfold expiration_timestamp_of
  rw [if_neg (show ¬ t < 0 by omega), floatDivInt_eq_div t.toNat (by omega)]
  omega

/-- C5 counterexample: at the instant 2 ^ 34 seconds + 999999 microseconds
after the epoch (a valid datetime in the year 2514), the float value of
`total_seconds()` rounds up into the next second, so `sign_url` prints
`Expires=17179869185` while the floor instant in whole seconds prints
`Expires=17179869184`: the two outputs differ, refuting the claim that every
non-negative instant signs like its floor. -/
theorem sign_url_truncation_cex :
    (0 : Int) ≤ 17179869184999999 ∧
    Int.fdiv 17179869184999999 1000000 = 17179869184 ∧
    expiration_timestamp_of 17179869184999999 = 17179869185 ∧
    sign_url "https://example.com/x" "k" "AAAA" 17179869184999999 =
      .ok (["https://example.com/x?Expires=17179869185&KeyName=k&Signature=ttgJwg033XVEaW0p4Fx5y2wZCb0="], none) ∧
    sign_url "https://example.com/x" "k" "AAAA" (1000000 * Int.fdiv 17179869184999999 1000000) =
      .ok (["https://example.com/x?Expires=17179869184&KeyName=k&Signature=BbbPfAHmnlAoMo9Ba3zS8Ku7WpU="], none) ∧
    ("https://example.com/x?Expires=17179869185&KeyName=k&Signature=ttgJwg033XVEaW0p4Fx5y2wZCb0=" : String) ≠
      "https://example.com/x?Expires=17179869184&KeyName=k&Signature=BbbPfAHmnlAoMo9Ba3zS8Ku7WpU=" :=
  ⟨by decide, rfl, rfl, rfl, rfl, by decide⟩

/-- C5 amended: for a non-negative expiration instant below 2 ^ 34 seconds
since the epoch (instants before the year 2514), the signed output is
unchanged when the instant is replaced by its floor in whole seconds:
there `int(total_seconds())` truncates the sub-second part.  For larger
instants the correctly rounded double returned by `total_seconds()` can
round up into the next second, as the counterexample shows. -/
theorem sign_url_truncation (url key_name base64_key : String) (t : Int)
    (h0 : 0 ≤ t) (hs : t < 17179869184000000) :
    sign_url url key_name base64_key t =
      sign_url url key_name base64_key (1000000 * Int.fdiv t 1000000) := by
  have hfd : Int.fdiv t 1000000 = t / 1000000 := Int.fdiv_eq_ediv _ (by norm_num)
  have h1 : expiration_timestamp_of t = t / 1000000 := expiration_timestamp_floor t h0 hs
  have h2 : expiration_timestamp_of (1000000 * Int.fdiv t 1000000) = t / 1000000 := by
    rw [hfd, expiration_timestamp_floor (1000000 * (t / 1000000)) (by omega) (by omega)]
    omega
  simp only [sign_url]
  rw [h1, h2]

/-- Witness for C5 (amended) at the instant 1.5 seconds after the epoch. -/
theorem sign_url_truncation_witness :
    (0 : Int) ≤ 1500000 ∧ (1500000 : Int) < 17179869184000000 ∧
    sign_url "https://example.com/x" "k" "AAAA" 1500000 =
      sign_url "https://example.com/x" "k" "AAAA" (1000000 * Int.fdiv 1500000 1000000) :=
  ⟨by decide, by decide, sign_url_truncation "https://example.com/x" "k" "AAAA" 1500000
    (by decide) (by decide)⟩

/-- C6: determinism: two runs of `sign_url` on the same four inputs produce
the same result; the embedding is a pure function of its arguments, with no
randomness and no ambient clock. -/
theorem sign_url_deterministic (url key_name base64_key : String) (t : Int)
    (o1 o2 : Except SignError (List String × Option String))
    (h1 : sign_url url key_name base64_key t = o1)
    (h2 : sign_url url key_name base64_key t = o2) : o1 = o2 := by
  rw [← h1, ← h2]

/-- Witness for C6 on a concrete run. -/
theorem sign_url_deterministic_witness :
    sign_url "a" "k" "AAAA" 0 =
      .ok (["a?Expires=0&KeyName=k&Signature=pbOegsmKeFwvN-uUb0uYl902T8o="], none) ∧
    (Except.ok (["a?Expires=0&KeyName=k&Signature=pbOegsmKeFwvN-uUb0uYl902T8o="],
        (none : Option String)) :
      Except SignError (List String × Option String)) =
      .ok (["a?Expires=0&KeyName=k&Signature=pbOegsmKeFwvN-uUb0uYl902T8o="], none) :=
  ⟨rfl, sign_url_deterministic "a" "k" "AAAA" 0
    (.ok (["a?Expires=0&KeyName=k&Signature=pbOegsmKeFwvN-uUb0uYl902T8o="], none))
    (.ok (["a?Expires=0&KeyName=k&Signature=pbOegsmKeFwvN-uUb0uYl902T8o="], none)) rfl rfl⟩

/-- C7 (code-bug evidence): `sign_url` performs output I/O and returns no
value: at the spec's concrete scenario it prints exactly one line, the
signed URL, to standard output and returns None, contradicting the claim
(and the function's own docstring, which says the signed URL is returned). -/
theorem sign_url_prints_and_returns_none :
    sign_url "https://example.com/objects/dog.png" "my-key" "nZtRohdNCWBsDuP5xDZ1Tg=="
        2147483647000000 =
      .ok (["https://example.com/objects/dog.png?Expires=2147483647&KeyName=my-key&Signature=3RIy6M_isvVup3XFL-gdlNXSL4Q="], none) := rfl

/-- C8: when `urlsplit` rejects the URL, `sign_url` fails immediately with
that ParseError (the only error `urlsplit` raises), propagated to the caller
unchanged: the function installs no handler and performs no recovery. -/
theorem sign_url_parse_error (url key_name base64_key : String) (t : Int) (e : SignError)
    (h : urlsplit (pyStrip url) = .error e) :
    sign_url url key_name base64_key t = .error .parseError := by
  have he := urlsplit_error _ _ h
  subst he
  exact sign_url_err_split url key_name base64_key t _ h

/-- Witness for C8 at a URL with an unmatched IPv6 bracket in its netloc. -/
theorem sign_url_parse_error_witness :
    urlsplit (pyStrip "http://[abc/x") = .error .parseError ∧
    sign_url "http://[abc/x" "k" "AAAA" 0 = .error .parseError :=
  ⟨rfl, sign_url_parse_error "http://[abc/x" "k" "AAAA" 0 .parseError rfl⟩

/-- C9: on every accepted input the Signature parameter of the output is a
28-character string ending in exactly one pad `=`: the HMAC-SHA1 digest is
always 20 bytes and URL-safe base64 encodes 20 bytes as 27 data characters
plus one pad. -/
theorem sign_url_signature_28 (url key_name base64_key : String) (t : Int)
    (r : SplitResult) (key : List Nat)
    (hr : urlsplit (pyStrip url) = .ok r) (hk : urlsafe_b64decode base64_key = .ok key) :
    ∃ u2s cs c, sign_url url key_name base64_key t =
        .ok ([u2s ++ "&Signature=" ++ ⟨cs ++ [c, '=']⟩], none) ∧
      (cs ++ [c, '=']).length = 28 ∧ c ≠ '=' := by
  have hlen : (hmacSha1 key (utf8 (pyStrip url ++
      (if query_params_nonempty r.query then "&" else "?") ++ "Expires=" ++
      toString (expiration_timestamp_of t) ++ "&KeyName=" ++ key_name).data)).length =
      3 * 6 + 2 := by
    rw [hmacSha1_length]
  obtain ⟨cs0, v, hv, hchunks, hcs0⟩ := b64chunks_struct 6 _ hlen
  have hstr : urlsafe_b64encode (hmacSha1 key (utf8 (pyStrip url ++
      (if query_params_nonempty r.query then "&" else "?") ++ "Expires=" ++
      toString (expiration_timestamp_of t) ++ "&KeyName=" ++ key_name).data)) =
      ⟨cs0.map urlsafeEncChar ++ [urlsafeEncChar (encChar v), '=']⟩ := by
    unfold urlsafe_b64encode
    rw [hchunks, List.map_append]
    rfl
  have h1 := sign_url_ok url key_name base64_key t r key hr hk
  rw [hstr] at h1
  refine ⟨_, cs0.map urlsafeEncChar, urlsafeEncChar (encChar v), h1, ?_,
    urlsafeEnc_encChar_ne_pad v hv⟩
  simp [List.length_append, List.length_map, hcs0]

/-- Witness for C9 at the spec's concrete scenario. -/
theorem sign_url_signature_28_witness :
    urlsplit (pyStrip "https://example.com/objects/dog.png") =
      .ok ⟨"https", "example.com", "/objects/dog.png", "", ""⟩ ∧
    urlsafe_b64decode "nZtRohdNCWBsDuP5xDZ1Tg==" =
      .ok [157, 155, 81, 162, 23, 77, 9, 96, 108, 14, 227, 249, 196, 54, 117, 78] ∧
    (∃ u2s cs c,
      sign_url "https://example.com/objects/dog.png" "my-key" "nZtRohdNCWBsDuP5xDZ1Tg=="
          2147483647000000 = .ok ([u2s ++ "&Signature=" ++ ⟨cs ++ [c, '=']⟩], none) ∧
      (cs ++ [c, '=']).length = 28 ∧ c ≠ '=') :=
  ⟨rfl, rfl,
    sign_url_signature_28 "https://example.com/objects/dog.png" "my-key"
      "nZtRohdNCWBsDuP5xDZ1Tg==" 2147483647000000
      ⟨"https", "example.com", "/objects/dog.png", "", ""⟩
      [157, 155, 81, 162, 23, 77, 9, 96, 108, 14, 227, 249, 196, 54, 117, 78] rfl rfl⟩

/-- C10: `sign_url` performs no local validation of the key name: as long as
the URL parses and the key decodes, signing succeeds for every key_name
string, the empty string included, and the output embeds it verbatim after
`KeyName=`, with no escaping or encoding. -/
theorem sign_url_keyname_verbatim (url base64_key : String) (t : Int)
    (r : SplitResult) (key : List Nat)
    (hr : urlsplit (pyStrip url) = .ok r) (hk : urlsafe_b64decode base64_key = .ok key)
    (key_name : String) :
    ∃ head sig, sign_url url key_name base64_key t =
      .ok ([head ++ "&KeyName=" ++ key_name ++ "&Signature=" ++ sig], none) :=
  ⟨pyStrip url ++ (if query_params_nonempty r.query then "&" else "?") ++ "Expires=" ++
      toString (expiration_timestamp_of t), _,
    sign_url_ok url key_name base64_key t r key hr hk⟩

/-- Witness for C10 with the empty key name. -/
theorem sign_url_keyname_verbatim_witness :
    urlsplit (pyStrip "https://example.com/x") = .ok ⟨"https", "example.com", "/x", "", ""⟩ ∧
    urlsafe_b64decode "AAAA" = .ok [0, 0, 0] ∧
    (∃ head sig, sign_url "https://example.com/x" "" "AAAA" 0 =
      .ok ([head ++ "&KeyName=" ++ "" ++ "&Signature=" ++ sig], none)) :=
  ⟨rfl, rfl,
    sign_url_keyname_verbatim "https://example.com/x" "AAAA" 0
      ⟨"https", "example.com", "/x", "", ""⟩ [0, 0, 0] rfl rfl ""⟩
